import Mathlib

/-!
Shallow embedding of the ICFP-2006 Universal Machine interpreter
(`src/main.rs`) and verification of the specification claims.

Machine words (`u32` in the source) are represented as natural numbers;
every word stored in the machine state is below `2 ^ 32`, and arithmetic
that wraps in the source (`wrapping_add`, `wrapping_mul`) is modelled
with an explicit `% 2 ^ 32`.

Rust panics (out-of-bounds `Vec` indexing, division by zero,
`char::from_u32(..).unwrap()`, `read_exact(..).unwrap()` at end of
stream) abort the process; they are modelled as an error result that
terminates execution, tagged by which check fired.
-/

namespace UMachine

/-- `2 ^ 32`, the modulus of the 32-bit machine words. -/
def WORD_BOUND : Nat := 2 ^ 32

/-- `op_code` from `src/main.rs`: `(p >> 28) as u8`.  For `p < 2 ^ 32`
the cast to `u8` is lossless, since `p >>> 28 < 16`. -/
def op_code (p : Nat) : Nat := p >>> 28

/-- `rega_offset` from `src/main.rs`: `((p >> 6) & 7) as usize`. -/
def rega_offset (p : Nat) : Nat := (p >>> 6) &&& 7

/-- `regb_offset` from `src/main.rs`: `((p >> 3) & 7) as usize`. -/
def regb_offset (p : Nat) : Nat := (p >>> 3) &&& 7

/-- `regc_offset` from `src/main.rs`: `(p & 7) as usize`. -/
def regc_offset (p : Nat) : Nat := p &&& 7

/-- `rego_offset` from `src/main.rs`: `((p >> 25) & 7) as usize`. -/
def rego_offset (p : Nat) : Nat := (p >>> 25) &&& 7

/-- `rego_value` from `src/main.rs`: `p & 0x1ffffff`. -/
def rego_value (p : Nat) : Nat := p &&& 0x1ffffff

/-- `make_platter` from the source's test module: packs opcode and the
three standard register selectors into one instruction word. -/
def make_platter (op a b c : Nat) : Nat :=
  (op <<< 28) ||| (a <<< 6) ||| (b <<< 3) ||| c

/-- Mirrors Rust `char::from_u32(v).is_some()`: `v` is a Unicode scalar
value, i.e. below `0x110000` and not a surrogate. -/
def validCodePoint (v : Nat) : Bool :=
  v < 0xd800 || (0xdfff < v && v < 0x110000)

/-- The interpreter state: the fields of `struct UM` in `src/main.rs`
(registers, segment table `programs`, instruction pointer `finger`,
free-slot list `freelist`), extended with the externally visible I/O
streams: the bytes still pending on stdin (`input`), the code points
written by the Output operation (`output`), and the opcode values
printed by the `Unknown OP` arm (`unknownReports`).
`freelist` stores the most recently pushed identifier first, so
`Vec::push`/`Vec::pop` become cons and head. -/
structure UM where
  registers : List Nat
  programs : List (List Nat)
  finger : Nat
  freelist : List Nat
  input : List Nat
  output : List Nat
  unknownReports : List Nat
  deriving DecidableEq

/-- `reg!(i)`: read register `i` (registers always form a list of
length 8, and selectors are below 8, so the fallback is never hit). -/
def UM.reg (m : UM) (i : Nat) : Nat := m.registers.getD i 0

/-- The panic/abort causes of the interpreter, tagged by which check in
the source fires. -/
inductive UMError where
  /-- fetch `programs[0][finger]` with the finger past segment 0 -/
  | fingerOOB
  /-- outer `Vec` index: a segment identifier at or past the table length -/
  | segIdOOB
  /-- inner `Vec` index: an offset at or past the segment length -/
  | offsetOOB
  /-- `wrapping_div` with divisor 0 -/
  | divisionByZero
  /-- `read_exact(..).unwrap()` with stdin exhausted -/
  | inputEOF
  /-- `char::from_u32(..).unwrap()` on a non-scalar value -/
  | invalidChar
  deriving DecidableEq

/-- Result of one iteration of the `loop` in `UM::spin_cycle`. -/
inductive StepResult where
  /-- the iteration completed and the loop continues -/
  | ok : UM → StepResult
  /-- the Halt operation ran `break` -/
  | halt : UM → StepResult
  /-- a panic aborted the process -/
  | err : UMError → StepResult
  deriving DecidableEq

/-- The body of the `match op_code(p)` dispatch in `UM::spin_cycle`,
including the trailing `self.finger += 1` (skipped by Load Program's
`continue` and by Halt's `break`).  In the Abandonment arm the source
pushes onto `freelist` before indexing, but a panic discards the state,
so the push is only visible in the in-range case. -/
def execOp (m : UM) (p : Nat) : StepResult :=
  let op := op_code p
  let a := rega_offset p
  let b := regb_offset p
  let c := regc_offset p
  if op = 0 then
    -- Conditional Move
    if m.reg c ≠ 0 then
      .ok { m with registers := m.registers.set a (m.reg b), finger := m.finger + 1 }
    else
      .ok { m with finger := m.finger + 1 }
  else if op = 1 then
    -- Array Index: programs[reg b][reg c]
    match m.programs[m.reg b]? with
    | none => .err .segIdOOB
    | some seg =>
      match seg[m.reg c]? with
      | none => .err .offsetOOB
      | some v => .ok { m with registers := m.registers.set a v, finger := m.finger + 1 }
  else if op = 2 then
    -- Array Amendment: programs[reg a][reg b] = reg c
    match m.programs[m.reg a]? with
    | none => .err .segIdOOB
    | some seg =>
      if m.reg b < seg.length then
        .ok { m with programs := m.programs.set (m.reg a) (seg.set (m.reg b) (m.reg c)),
                     finger := m.finger + 1 }
      else .err .offsetOOB
  else if op = 3 then
    -- Addition: wrapping_add
    .ok { m with registers := m.registers.set a ((m.reg b + m.reg c) % WORD_BOUND),
                 finger := m.finger + 1 }
  else if op = 4 then
    -- Multiplication: wrapping_mul
    .ok { m with registers := m.registers.set a ((m.reg b * m.reg c) % WORD_BOUND),
                 finger := m.finger + 1 }
  else if op = 5 then
    -- Division: wrapping_div (panics when the divisor is zero)
    if m.reg c = 0 then .err .divisionByZero
    else .ok { m with registers := m.registers.set a (m.reg b / m.reg c),
                      finger := m.finger + 1 }
  else if op = 6 then
    -- Nand: !(reg b & reg c), bitwise complement on 32 bits
    .ok { m with registers := m.registers.set a ((WORD_BOUND - 1) ^^^ (m.reg b &&& m.reg c)),
                 finger := m.finger + 1 }
  else if op = 7 then
    -- Halt: break out of the loop
    .halt m
  else if op = 8 then
    -- Allocation: vec![0; reg c], then reuse a freed slot or push
    let array : List Nat := List.replicate (m.reg c) 0
    match m.freelist with
    | i :: rest =>
      .ok { m with registers := m.registers.set b i,
                   programs := m.programs.set i array,
                   freelist := rest,
                   finger := m.finger + 1 }
    | [] =>
      -- reg!(b) = self.programs.len() as u32: a truncating cast
      .ok { m with registers := m.registers.set b (m.programs.length % WORD_BOUND),
                   programs := m.programs ++ [array],
                   finger := m.finger + 1 }
  else if op = 9 then
    -- Abandonment: freelist.push(reg c); programs[reg c].clear()
    if m.reg c < m.programs.length then
      .ok { m with freelist := m.reg c :: m.freelist,
                   programs := m.programs.set (m.reg c) [],
                   finger := m.finger + 1 }
    else .err .segIdOOB
  else if op = 10 then
    -- Output: char::from_u32(reg c).unwrap()
    if validCodePoint (m.reg c) then
      .ok { m with output := m.output ++ [m.reg c], finger := m.finger + 1 }
    else .err .invalidChar
  else if op = 11 then
    -- Input: read one byte; read_exact(..).unwrap() panics at EOF
    match m.input with
    | [] => .err .inputEOF
    | byte :: rest =>
      .ok { m with registers := m.registers.set c byte, input := rest,
                   finger := m.finger + 1 }
  else if op = 12 then
    -- Load Program: clone segment reg b into segment 0 unless reg b = 0,
    -- then continue with finger = reg c (no increment)
    if m.reg b ≠ 0 then
      match m.programs[m.reg b]? with
      | none => .err .segIdOOB
      | some seg => .ok { m with programs := m.programs.set 0 seg, finger := m.reg c }
    else .ok { m with finger := m.reg c }
  else if op = 13 then
    -- Orthography: registers[rego_offset p] = rego_value p
    .ok { m with registers := m.registers.set (rego_offset p) (rego_value p),
                 finger := m.finger + 1 }
  else
    -- Unknown OP: printed, then execution falls through to finger += 1
    .ok { m with unknownReports := m.unknownReports ++ [op], finger := m.finger + 1 }

/-- One iteration of the `loop`: fetch `programs[0][finger]`, then
dispatch.  Both indexings panic when out of range. -/
def stepUM (m : UM) : StepResult :=
  match m.programs[0]? with
  | none => .err .segIdOOB
  | some s0 =>
    match s0[m.finger]? with
    | none => .err .fingerOOB
    | some p => execOp m p

/-- Outcome of running the loop for a bounded number of iterations. -/
inductive RunResult where
  /-- Halt executed -/
  | halted : UM → RunResult
  /-- a panic aborted the run -/
  | failed : UMError → RunResult
  /-- fuel exhausted with the machine still running -/
  | running : UM → RunResult
  deriving DecidableEq

/-- Run at most `fuel` iterations of the fetch-dispatch loop. -/
def runUM : Nat → UM → RunResult
  | 0, m => .running m
  | fuel + 1, m =>
    match stepUM m with
    | .ok m2 => runUM fuel m2
    | .halt m2 => .halted m2
    | .err e => .failed e

/-- The state `main` hands to `spin_cycle`: `UM::default()` (eight zero
registers, empty table, finger 0, empty free list) with the program
image pushed as segment 0; `ins` is the pending stdin byte stream. -/
def initUM (img : List Nat) (ins : List Nat) : UM :=
  { registers := List.replicate 8 0
    programs := [img]
    finger := 0
    freelist := []
    input := ins
    output := []
    unknownReports := [] }

/-! ### Supporting lemmas -/

theorem getD_set_self (l : List Nat) (i v : Nat) (h : i < l.length) :
    (l.set i v).getD i 0 = v := by
  simp [List.getD_eq_getElem?_getD, List.getElem?_set_self h]

theorem and7_lt_8 (x : Nat) : x &&& 7 < 8 := Nat.lt_succ_of_le Nat.and_le_right

theorem rega_offset_lt (p : Nat) : rega_offset p < 8 := and7_lt_8 _

theorem regb_offset_lt (p : Nat) : regb_offset p < 8 := and7_lt_8 _

theorem regc_offset_lt (p : Nat) : regc_offset p < 8 := and7_lt_8 _

theorem stepUM_fetch (m : UM) (s0 : List Nat) (p : Nat)
    (h0 : m.programs[0]? = some s0) (hf : s0[m.finger]? = some p) :
    stepUM m = execOp m p := by
  simp [stepUM, h0, hf]

theorem execOp_alloc_reuse (m : UM) (p i : Nat) (rest : List Nat)
    (hop : op_code p = 8) (hfl : m.freelist = i :: rest) :
    execOp m p = .ok { m with
      registers := m.registers.set (regb_offset p) i,
      programs := m.programs.set i (List.replicate (m.reg (regc_offset p)) 0),
      freelist := rest,
      finger := m.finger + 1 } := by
  simp [execOp, hop, hfl]

theorem execOp_alloc_fresh (m : UM) (p : Nat)
    (hop : op_code p = 8) (hfl : m.freelist = []) :
    execOp m p = .ok { m with
      registers := m.registers.set (regb_offset p) (m.programs.length % WORD_BOUND),
      programs := m.programs ++ [List.replicate (m.reg (regc_offset p)) 0],
      finger := m.finger + 1 } := by
  simp [execOp, hop, hfl]

theorem execOp_abandon_ok (m : UM) (p : Nat)
    (hop : op_code p = 9) (hlt : m.reg (regc_offset p) < m.programs.length) :
    execOp m p = .ok { m with
      freelist := m.reg (regc_offset p) :: m.freelist,
      programs := m.programs.set (m.reg (regc_offset p)) [],
      finger := m.finger + 1 } := by
  simp [execOp, hop, hlt]

theorem execOp_abandon_err (m : UM) (p : Nat)
    (hop : op_code p = 9) (hge : m.programs.length ≤ m.reg (regc_offset p)) :
    execOp m p = .err .segIdOOB := by
  simp [execOp, hop, Nat.not_lt.2 hge]

theorem execOp_load_copy (m : UM) (p : Nat) (seg : List Nat)
    (hop : op_code p = 12) (hb : m.reg (regb_offset p) ≠ 0)
    (hseg : m.programs[m.reg (regb_offset p)]? = some seg) :
    execOp m p = .ok { m with programs := m.programs.set 0 seg,
                              finger := m.reg (regc_offset p) } := by
  simp [execOp, hop, hb, hseg]

theorem execOp_load_self (m : UM) (p : Nat)
    (hop : op_code p = 12) (hb : m.reg (regb_offset p) = 0) :
    execOp m p = .ok { m with finger := m.reg (regc_offset p) } := by
  simp [execOp, hop, hb]

theorem execOp_div_ok (m : UM) (p : Nat)
    (hop : op_code p = 5) (hc : m.reg (regc_offset p) ≠ 0) :
    execOp m p = .ok { m with
      registers := m.registers.set (rega_offset p)
        (m.reg (regb_offset p) / m.reg (regc_offset p)),
      finger := m.finger + 1 } := by
  simp [execOp, hop, hc]

theorem execOp_div_zero (m : UM) (p : Nat)
    (hop : op_code p = 5) (hc : m.reg (regc_offset p) = 0) :
    execOp m p = .err .divisionByZero := by
  simp [execOp, hop, hc]

theorem execOp_add (m : UM) (p : Nat) (hop : op_code p = 3) :
    execOp m p = .ok { m with
      registers := m.registers.set (rega_offset p)
        ((m.reg (regb_offset p) + m.reg (regc_offset p)) % 2 ^ 32),
      finger := m.finger + 1 } := by
  simp [execOp, hop, WORD_BOUND]

theorem execOp_mul (m : UM) (p : Nat) (hop : op_code p = 4) :
    execOp m p = .ok { m with
      registers := m.registers.set (rega_offset p)
        ((m.reg (regb_offset p) * m.reg (regc_offset p)) % 2 ^ 32),
      finger := m.finger + 1 } := by
  simp [execOp, hop, WORD_BOUND]

theorem execOp_ortho (m : UM) (p : Nat) (hop : op_code p = 13) :
    execOp m p = .ok { m with
      registers := m.registers.set (rego_offset p) (rego_value p),
      finger := m.finger + 1 } := by
  simp [execOp, hop]

theorem execOp_unknown (m : UM) (p : Nat) (hop : 14 ≤ op_code p) :
    execOp m p = .ok { m with unknownReports := m.unknownReports ++ [op_code p],
                              finger := m.finger + 1 } := by
  have h0 : op_code p ≠ 0 := by omega
  have h1 : op_code p ≠ 1 := by omega
  have h2 : op_code p ≠ 2 := by omega
  have h3 : op_code p ≠ 3 := by omega
  have h4 : op_code p ≠ 4 := by omega
  have h5 : op_code p ≠ 5 := by omega
  have h6 : op_code p ≠ 6 := by omega
  have h7 : op_code p ≠ 7 := by omega
  have h8 : op_code p ≠ 8 := by omega
  have h9 : op_code p ≠ 9 := by omega
  have h10 : op_code p ≠ 10 := by omega
  have h11 : op_code p ≠ 11 := by omega
  have h12 : op_code p ≠ 12 := by omega
  have h13 : op_code p ≠ 13 := by omega
  simp [execOp, h0, h1, h2, h3, h4, h5, h6, h7, h8, h9, h10, h11, h12, h13]

theorem execOp_index_empty (m : UM) (p : Nat)
    (hop : op_code p = 1)
    (hseg : m.programs[m.reg (regb_offset p)]? = some ([] : List Nat)) :
    execOp m p = .err .offsetOOB := by
  simp [execOp, hop, hseg]

theorem execOp_amend_empty (m : UM) (p : Nat)
    (hop : op_code p = 2)
    (hseg : m.programs[m.reg (rega_offset p)]? = some ([] : List Nat)) :
    execOp m p = .err .offsetOOB := by
  simp [execOp, hop, hseg]

theorem initUM_freelist_bounded (img ins : List Nat) :
    ∀ j ∈ (initUM img ins).freelist, j < (initUM img ins).programs.length := by
  intro j hj
  simp [initUM] at hj

/-- Reachable-state invariant: every identifier on the free-slot list is
below the segment-table length, and one successful step preserves this
(identifiers enter the list only through Abandonment, whose table index
was in range, and the table never shrinks). -/
theorem stepUM_freelist_bounded (m m2 : UM)
    (h : stepUM m = .ok m2) (hok : ∀ j ∈ m.freelist, j < m.programs.length) :
    ∀ j ∈ m2.freelist, j < m2.programs.length := by
  unfold stepUM at h
  split at h
  next => cases h
  next s0 h0 =>
  split at h
  next => cases h
  next p hp =>
  unfold execOp at h
  by_cases e0 : op_code p = 0
  · rw [if_pos e0] at h
    by_cases ec : m.reg (regc_offset p) ≠ 0
    · rw [if_pos ec] at h
      injection h with hh
      subst hh
      exact hok
    · rw [if_neg ec] at h
      injection h with hh
      subst hh
      exact hok
  rw [if_neg e0] at h
  by_cases e1 : op_code p = 1
  · rw [if_pos e1] at h
    rcases hseg : m.programs[m.reg (regb_offset p)]? with - | seg <;>
      simp only [hseg] at h
    · cases h
    rcases hv : seg[m.reg (regc_offset p)]? with - | v <;> simp only [hv] at h
    · cases h
    injection h with hh
    subst hh
    exact hok
  rw [if_neg e1] at h
  by_cases e2 : op_code p = 2
  · rw [if_pos e2] at h
    rcases hseg : m.programs[m.reg (rega_offset p)]? with - | seg <;>
      simp only [hseg] at h
    · cases h
    by_cases eb : m.reg (regb_offset p) < seg.length
    · rw [if_pos eb] at h
      injection h with hh
      subst hh
      intro j hj
      simpa using hok j hj
    · rw [if_neg eb] at h
      cases h
  rw [if_neg e2] at h
  by_cases e3 : op_code p = 3
  · rw [if_pos e3] at h
    injection h with hh
    subst hh
    exact hok
  rw [if_neg e3] at h
  by_cases e4 : op_code p = 4
  · rw [if_pos e4] at h
    injection h with hh
    subst hh
    exact hok
  rw [if_neg e4] at h
  by_cases e5 : op_code p = 5
  · rw [if_pos e5] at h
    by_cases ec : m.reg (regc_offset p) = 0
    · rw [if_pos ec] at h
      cases h
    · rw [if_neg ec] at h
      injection h with hh
      subst hh
      exact hok
  rw [if_neg e5] at h
  by_cases e6 : op_code p = 6
  · rw [if_pos e6] at h
    injection h with hh
    subst hh
    exact hok
  rw [if_neg e6] at h
  by_cases e7 : op_code p = 7
  · rw [if_pos e7] at h
    cases h
  rw [if_neg e7] at h
  by_cases e8 : op_code p = 8
  · rw [if_pos e8] at h
    rcases hfl : m.freelist with - | ⟨i, rest⟩ <;> simp only [hfl] at h
    · injection h with hh
      subst hh
      intro j hj
      simp at hj
    · injection h with hh
      subst hh
      intro j hj
      have := hok j (hfl ▸ List.mem_cons_of_mem i hj)
      simpa using this
  rw [if_neg e8] at h
  by_cases e9 : op_code p = 9
  · rw [if_pos e9] at h
    by_cases ec : m.reg (regc_offset p) < m.programs.length
    · rw [if_pos ec] at h
      injection h with hh
      subst hh
      intro j hj
      rcases List.mem_cons.1 hj with hj | hj
      · subst hj
        simpa using ec
      · simpa using hok j hj
    · rw [if_neg ec] at h
      cases h
  rw [if_neg e9] at h
  by_cases e10 : op_code p = 10
  · rw [if_pos e10] at h
    by_cases ev : validCodePoint (m.reg (regc_offset p)) = true
    · rw [if_pos ev] at h
      injection h with hh
      subst hh
      exact hok
    · rw [if_neg ev] at h
      cases h
  rw [if_neg e10] at h
  by_cases e11 : op_code p = 11
  · rw [if_pos e11] at h
    rcases hin : m.input with - | ⟨byte, rest⟩ <;> simp only [hin] at h
    · cases h
    · injection h with hh
      subst hh
      exact hok
  rw [if_neg e11] at h
  by_cases e12 : op_code p = 12
  · rw [if_pos e12] at h
    by_cases eb : m.reg (regb_offset p) ≠ 0
    · rw [if_pos eb] at h
      rcases hseg : m.programs[m.reg (regb_offset p)]? with - | seg <;>
        simp only [hseg] at h
      · cases h
      · injection h with hh
        subst hh
        intro j hj
        simpa using hok j hj
    · rw [if_neg eb] at h
      injection h with hh
      subst hh
      exact hok
  rw [if_neg e12] at h
  by_cases e13 : op_code p = 13
  · rw [if_pos e13] at h
    injection h with hh
    subst hh
    exact hok
  rw [if_neg e13] at h
  injection h with hh
  subst hh
  exact hok

/-! ### The claims -/

/-- Concrete machine for claim C3: an Input instruction with stdin
already exhausted, and the same instruction with one byte pending. -/
def umC3 : UM := initUM [make_platter 11 0 0 5] []

/-- Concrete machine for claim C3, with the byte 65 pending on stdin. -/
def umC3b : UM := initUM [make_platter 11 0 0 5] [65]

/-- Claim C3: the claim says that on end-of-stream Input sets reg C to
`0xFFFFFFFF` instead of failing.  The code instead panics: `read_exact`
returns an error at end of stream and `.unwrap()` aborts, modelled as
the `inputEOF` error.  With a byte available the instruction does read
exactly one byte into reg C zero-extended, as the claim says. -/
theorem C3_input_eof_panics :
    stepUM umC3 = .err .inputEOF ∧
    stepUM umC3b = .ok { umC3b with registers := (List.replicate 8 0).set 5 65,
                                    input := [], finger := 1 } :=
  ⟨rfl, rfl⟩

/-- Concrete machine for the C4 counterexample: an opcode-14 word
followed by Halt. -/
def umC4 : UM := initUM [0xE0000000, 0x70000000] []

/-- Claim C4 counterexample: on an opcode-14 instruction the engine
does not halt: the step reports the opcode and yields an `ok`
continuation state with the finger advanced, and the run then executes
the following Halt instruction — execution continued past the
unsupported instruction, contradicting the claim that it halts there. -/
theorem C4_counterexample :
    stepUM umC4 = .ok { umC4 with unknownReports := [14], finger := 1 } ∧
    runUM 2 umC4 = .halted { umC4 with unknownReports := [14], finger := 1 } :=
  ⟨rfl, rfl⟩

/-- Claim C4 (amended): for an instruction whose opcode is 14 or 15 the
engine prints the unrecognized opcode and then continues with the next
instruction: the step succeeds with the opcode appended to the report
stream, the finger incremented, and registers and segments unchanged. -/
theorem C4_unknown_op_continues (m : UM) (s0 : List Nat) (p : Nat)
    (h0 : m.programs[0]? = some s0) (hf : s0[m.finger]? = some p)
    (hop : 14 ≤ op_code p) :
    stepUM m = .ok { m with unknownReports := m.unknownReports ++ [op_code p],
                            finger := m.finger + 1 } := by
  rw [stepUM_fetch m s0 p h0 hf]
  exact execOp_unknown m p hop

/-- Concrete machine for the C4 witness: a single opcode-15 word. -/
def umC4w : UM := initUM [0xF0000000] []

/-- Witness for `C4_unknown_op_continues` at a concrete opcode-15
instruction. -/
theorem C4_witness :
    stepUM umC4w = .ok { umC4w with unknownReports := [15], finger := 1 } :=
  C4_unknown_op_continues umC4w [0xF0000000] 0xF0000000 rfl rfl (by decide)

/-- Concrete machine for the C5 counterexample: Abandonment with
reg C selecting register 0, which holds 0 — abandoning segment 0. -/
def umC5 : UM := initUM [make_platter 9 0 0 0] []

/-- Claim C5 counterexample: abandoning segment 0 does not fail.  The
step succeeds: identifier 0 is pushed onto the free list and segment 0
is cleared, directly contradicting the claim that reg C = 0 faults
with an invalid-segment-access condition. -/
theorem C5_counterexample :
    stepUM umC5 = .ok { umC5 with freelist := [0], programs := [[]], finger := 1 } :=
  rfl

/-- Claim C5 (amended): Abandonment performs no liveness check at all.
For any reg C below the segment-table length — including 0 and
already-abandoned identifiers — it pushes reg C onto the free-slot
list and clears that segment's storage; it fails fatally only when
reg C is at or past the table length (the bare `Vec` index panic). -/
theorem C5_abandonment_no_liveness_check (m : UM) (s0 : List Nat) (p : Nat)
    (h0 : m.programs[0]? = some s0) (hf : s0[m.finger]? = some p)
    (hop : op_code p = 9) :
    (m.reg (regc_offset p) < m.programs.length →
       stepUM m = .ok { m with
         freelist := m.reg (regc_offset p) :: m.freelist,
         programs := m.programs.set (m.reg (regc_offset p)) [],
         finger := m.finger + 1 }) ∧
    (m.programs.length ≤ m.reg (regc_offset p) →
       stepUM m = .err .segIdOOB) := by
  constructor
  · intro h
    rw [stepUM_fetch m s0 p h0 hf]
    exact execOp_abandon_ok m p hop h
  · intro h
    rw [stepUM_fetch m s0 p h0 hf]
    exact execOp_abandon_err m p hop h

/-- Concrete machine for the C5 witness: Abandonment with reg C
selecting register 1, which holds 0, so segment 0 is in range. -/
def umC5w : UM := initUM [make_platter 9 0 0 1] []

/-- Witness for `C5_abandonment_no_liveness_check` at a concrete
in-range identifier. -/
theorem C5_witness :
    stepUM umC5w = .ok { umC5w with freelist := [0], programs := [[]], finger := 1 } :=
  (C5_abandonment_no_liveness_check umC5w [make_platter 9 0 0 1]
    (make_platter 9 0 0 1) rfl rfl rfl).1 (by decide)

/-- Claim C6: decoding is a total deterministic function of the word:
opcode is bits 31–28, A is bits 8–6, B is bits 5–3, C is bits 2–0,
the Orthography destination is bits 27–25 and its immediate bits 24–0
(each stated as the corresponding divide-and-mod expression, so the
value depends on exactly those bits); and an opcode-13 step writes the
immediate to the destination register, never consulting A, B or C. -/
theorem C6_decoding :
    (∀ p : Nat, op_code p = p / 2 ^ 28) ∧
    (∀ p : Nat, rega_offset p = p / 2 ^ 6 % 8) ∧
    (∀ p : Nat, regb_offset p = p / 2 ^ 3 % 8) ∧
    (∀ p : Nat, regc_offset p = p % 8) ∧
    (∀ p : Nat, rego_offset p = p / 2 ^ 25 % 8) ∧
    (∀ p : Nat, rego_value p = p % 2 ^ 25) ∧
    (∀ (m : UM) (s0 : List Nat) (p : Nat),
       m.programs[0]? = some s0 → s0[m.finger]? = some p → op_code p = 13 →
       stepUM m = .ok { m with
         registers := m.registers.set (rego_offset p) (rego_value p),
         finger := m.finger + 1 }) := by
  refine ⟨fun p => Nat.shiftRight_eq_div_pow p 28,
          fun p => ?_, fun p => ?_, fun p => ?_, fun p => ?_, fun p => ?_,
          fun m s0 p h0 hf hop => ?_⟩
  · have h := Nat.and_pow_two_sub_one_eq_mod (p >>> 6) 3
    norm_num at h
    rw [Nat.shiftRight_eq_div_pow] at h
    simp only [rega_offset, h, Nat.shiftRight_eq_div_pow]
  · have h := Nat.and_pow_two_sub_one_eq_mod (p >>> 3) 3
    norm_num at h
    rw [Nat.shiftRight_eq_div_pow] at h
    simp only [regb_offset, h, Nat.shiftRight_eq_div_pow]
  · have h := Nat.and_pow_two_sub_one_eq_mod p 3
    norm_num at h
    simp only [regc_offset, h]
  · have h := Nat.and_pow_two_sub_one_eq_mod (p >>> 25) 3
    norm_num at h
    rw [Nat.shiftRight_eq_div_pow] at h
    simp only [rego_offset, h, Nat.shiftRight_eq_div_pow]
  · have h := Nat.and_pow_two_sub_one_eq_mod p 25
    norm_num at h ⊢
    simpa [rego_value] using h
  · rw [stepUM_fetch m s0 p h0 hf]
    exact execOp_ortho m p hop

/-- Concrete machine for the C6 witness: an Orthography word with
destination selector 7 and immediate 1. -/
def umC6 : UM := initUM [0xDE000001] []

/-- Witness for the Orthography component of `C6_decoding` at a
concrete instruction word. -/
theorem C6_witness :
    stepUM umC6 = .ok { umC6 with registers := (List.replicate 8 0).set 7 1,
                                  finger := 1 } :=
  C6_decoding.2.2.2.2.2.2 umC6 [0xDE000001] 0xDE000001 rfl rfl (by decide)

/-- Claim C7: Addition and Multiplication store the sum respectively
the product of reg B and reg C reduced modulo `2 ^ 32` into reg A,
for every pair of register values, without faulting. -/
theorem C7_add_mul_wrap (m : UM) (s0 : List Nat) (p : Nat)
    (h0 : m.programs[0]? = some s0) (hf : s0[m.finger]? = some p) :
    (op_code p = 3 →
       stepUM m = .ok { m with
         registers := m.registers.set (rega_offset p)
           ((m.reg (regb_offset p) + m.reg (regc_offset p)) % 2 ^ 32),
         finger := m.finger + 1 }) ∧
    (op_code p = 4 →
       stepUM m = .ok { m with
         registers := m.registers.set (rega_offset p)
           ((m.reg (regb_offset p) * m.reg (regc_offset p)) % 2 ^ 32),
         finger := m.finger + 1 }) := by
  constructor
  · intro hop
    rw [stepUM_fetch m s0 p h0 hf]
    exact execOp_add m p hop
  · intro hop
    rw [stepUM_fetch m s0 p h0 hf]
    exact execOp_mul m p hop

/-- Concrete machine for the C7 witness: reg 0 holds `0xFFFFFFFF`,
reg 1 holds 1, reg 2 holds 7, and the program adds reg 0 and reg 1
into reg 2. -/
def umC7 : UM :=
  { registers := [0xFFFFFFFF, 1, 7, 0, 0, 0, 0, 0]
    programs := [[make_platter 3 2 0 1]]
    finger := 0
    freelist := []
    input := []
    output := []
    unknownReports := [] }

/-- Witness for `C7_add_mul_wrap`: `0xFFFFFFFF + 1` wraps to 0. -/
theorem C7_witness :
    stepUM umC7 = .ok { umC7 with registers := [0xFFFFFFFF, 1, 0, 0, 0, 0, 0, 0],
                                  finger := 1 } :=
  (C7_add_mul_wrap umC7 [make_platter 3 2 0 1] (make_platter 3 2 0 1)
    rfl rfl).1 rfl

/-- Claim C8: Division with a non-zero divisor stores the floor of the
unsigned quotient of reg B by reg C into reg A; with divisor zero the
step fails fatally with the division-by-zero condition and execution
stops (the step produces no continuation state). -/
theorem C8_division (m : UM) (s0 : List Nat) (p : Nat)
    (h0 : m.programs[0]? = some s0) (hf : s0[m.finger]? = some p)
    (hop : op_code p = 5) :
    (m.reg (regc_offset p) ≠ 0 →
       stepUM m = .ok { m with
         registers := m.registers.set (rega_offset p)
           (m.reg (regb_offset p) / m.reg (regc_offset p)),
         finger := m.finger + 1 }) ∧
    (m.reg (regc_offset p) = 0 →
       stepUM m = .err .divisionByZero) := by
  constructor
  · intro hc
    rw [stepUM_fetch m s0 p h0 hf]
    exact execOp_div_ok m p hop hc
  · intro hc
    rw [stepUM_fetch m s0 p h0 hf]
    exact execOp_div_zero m p hop hc

/-- Concrete machine for the C8 witness: reg 1 holds 7, reg 2 holds 2,
and the program divides reg 1 by reg 2 into reg 0. -/
def umC8 : UM :=
  { registers := [0, 7, 2, 0, 0, 0, 0, 0]
    programs := [[make_platter 5 0 1 2]]
    finger := 0
    freelist := []
    input := []
    output := []
    unknownReports := [] }

/-- Witness for `C8_division`: `7 / 2` floors to 3. -/
theorem C8_witness :
    stepUM umC8 = .ok { umC8 with registers := [3, 7, 2, 0, 0, 0, 0, 0],
                                  finger := 1 } :=
  (C8_division umC8 [make_platter 5 0 1 2] (make_platter 5 0 1 2)
    rfl rfl rfl).1 (by decide)

/-- Claim C9: the machine is deterministic.  One step is a function of
the current state alone (which includes the pending input bytes), and a
bounded run from a fixed program image and fixed input stream has a
unique outcome — in particular the final registers, segment store and
output stream agree between any two runs. -/
theorem C9_deterministic :
    (∀ (s : UM) (r₁ r₂ : StepResult), stepUM s = r₁ → stepUM s = r₂ → r₁ = r₂) ∧
    (∀ (fuel : Nat) (img ins : List Nat) (r₁ r₂ : RunResult),
       runUM fuel (initUM img ins) = r₁ → runUM fuel (initUM img ins) = r₂ →
       r₁ = r₂) := by
  refine ⟨fun s r₁ r₂ h₁ h₂ => ?_, fun fuel img ins r₁ r₂ h₁ h₂ => ?_⟩ <;>
    rw [← h₁, ← h₂]

/-- Concrete machine for the C9 witness: a single Halt instruction. -/
def umC9 : UM := initUM [0x70000000] []

/-- Witness for `C9_deterministic`: the step outcome of a concrete
state is pinned to its unique value. -/
theorem C9_witness : stepUM umC9 = .halt umC9 :=
  C9_deterministic.1 umC9 (stepUM umC9) (.halt umC9) rfl rfl

/-- Claim C1: Allocation creates a segment of exactly reg C words, all
zero; it reuses the head of the free-slot list (the most recently freed
identifier) when that list is non-empty, otherwise it mints the current
segment-table length; the chosen identifier is written into reg B.  The
second component is the abandon-then-allocate scenario: after a
successful Abandonment of an identifier, the next Allocation reuses
exactly that identifier and its segment is fully zero-initialized at
the newly requested length regardless of former contents.  The
hypothesis that free-slot entries lie below the table length is the
reachable-state invariant (identifiers enter the free list only via
Abandonment, whose index into the table must have been in range); the
hypothesis bounding the table length by `2 ^ 32` reflects the
truncating `self.programs.len() as u32` cast in the source — the
minted register value is the length reduced mod `2 ^ 32`, which equals
the table length itself only below that bound. -/
theorem C1_allocation :
    (∀ (m : UM) (s0 : List Nat) (p : Nat),
       m.programs[0]? = some s0 → s0[m.finger]? = some p → op_code p = 8 →
       m.registers.length = 8 →
       m.programs.length < 2 ^ 32 →
       (∀ j ∈ m.freelist, j < m.programs.length) →
       ∃ (m2 : UM) (id : Nat),
         stepUM m = .ok m2 ∧
         (m.freelist = [] → id = m.programs.length) ∧
         (∀ i rest, m.freelist = i :: rest → id = i ∧ m2.freelist = rest) ∧
         m2.reg (regb_offset p) = id ∧
         m2.programs[id]? = some (List.replicate (m.reg (regc_offset p)) 0)) ∧
    (∀ (m m1 : UM) (s0 s1 : List Nat) (p q : Nat),
       m.programs[0]? = some s0 → s0[m.finger]? = some p → op_code p = 9 →
       stepUM m = .ok m1 →
       m1.programs[0]? = some s1 → s1[m1.finger]? = some q → op_code q = 8 →
       m1.registers.length = 8 →
       ∃ m2 : UM,
         stepUM m1 = .ok m2 ∧
         m2.reg (regb_offset q) = m.reg (regc_offset p) ∧
         m2.programs[m.reg (regc_offset p)]? =
           some (List.replicate (m1.reg (regc_offset q)) 0)) := by
  constructor
  · intro m s0 p h0 hf hop hlen hbound hinv
    cases hfl : m.freelist with
    | nil =>
      refine ⟨{ m with
          registers := m.registers.set (regb_offset p) (m.programs.length % WORD_BOUND),
          programs := m.programs ++ [List.replicate (m.reg (regc_offset p)) 0],
          finger := m.finger + 1 },
        m.programs.length, ?_, fun _ => rfl, ?_, ?_, ?_⟩
      · rw [stepUM_fetch m s0 p h0 hf]
        exact execOp_alloc_fresh m p hop hfl
      · intro i rest h
        simp at h
      · exact (getD_set_self m.registers (regb_offset p)
          (m.programs.length % WORD_BOUND) (hlen ▸ regb_offset_lt p)).trans
          (Nat.mod_eq_of_lt hbound)
      · exact List.getElem?_concat_length m.programs _
    | cons i rest =>
      refine ⟨{ m with
          registers := m.registers.set (regb_offset p) i,
          programs := m.programs.set i (List.replicate (m.reg (regc_offset p)) 0),
          freelist := rest,
          finger := m.finger + 1 },
        i, ?_, ?_, ?_, ?_, ?_⟩
      · rw [stepUM_fetch m s0 p h0 hf]
        exact execOp_alloc_reuse m p i rest hop hfl
      · intro h
        simp at h
      · intro i2 rest2 h
        injection h with h1 h2
        exact ⟨h1, h2⟩
      · exact getD_set_self m.registers (regb_offset p) i (hlen ▸ regb_offset_lt p)
      · exact List.getElem?_set_self (hinv i (hfl ▸ List.mem_cons_self i rest))
  · intro m m1 s0 s1 p q h0 hf hop9 hstep h01 hf1 hop8 hlen1
    rw [stepUM_fetch m s0 p h0 hf] at hstep
    by_cases hlt : m.reg (regc_offset p) < m.programs.length
    · rw [execOp_abandon_ok m p hop9 hlt] at hstep
      injection hstep with hm1
      have hfl1 : m1.freelist = m.reg (regc_offset p) :: m.freelist := by
        rw [← hm1]
      have hprog1 : m1.programs = m.programs.set (m.reg (regc_offset p)) [] := by
        rw [← hm1]
      refine ⟨{ m1 with
          registers := m1.registers.set (regb_offset q) (m.reg (regc_offset p)),
          programs := m1.programs.set (m.reg (regc_offset p))
            (List.replicate (m1.reg (regc_offset q)) 0),
          freelist := m.freelist,
          finger := m1.finger + 1 }, ?_, ?_, ?_⟩
      · rw [stepUM_fetch m1 s1 q h01 hf1]
        exact execOp_alloc_reuse m1 q (m.reg (regc_offset p)) m.freelist hop8 hfl1
      · exact getD_set_self m1.registers (regb_offset q) (m.reg (regc_offset p))
          (hlen1 ▸ regb_offset_lt q)
      · exact List.getElem?_set_self
          (show m.reg (regc_offset p) < m1.programs.length by
            rw [hprog1, List.length_set]
            exact hlt)
    · rw [execOp_abandon_err m p hop9 (Nat.not_lt.1 hlt)] at hstep
      cases hstep

/-- Concrete machine for the C1 witness: register 2 holds 3, and the
program allocates a segment of reg 2 words with the identifier written
to reg 1; the free-slot list is empty, so identifier 1 (the table
length) is minted. -/
def umC1 : UM :=
  { registers := [0, 0, 3, 0, 0, 0, 0, 0]
    programs := [[make_platter 8 0 1 2]]
    finger := 0
    freelist := []
    input := []
    output := []
    unknownReports := [] }

/-- Witness for `C1_allocation` at a concrete allocation of 3 words. -/
theorem C1_witness :
    ∃ (m2 : UM) (id : Nat),
      stepUM umC1 = .ok m2 ∧
      (umC1.freelist = [] → id = umC1.programs.length) ∧
      (∀ i rest, umC1.freelist = i :: rest → id = i ∧ m2.freelist = rest) ∧
      m2.reg (regb_offset (make_platter 8 0 1 2)) = id ∧
      m2.programs[id]? =
        some (List.replicate (umC1.reg (regc_offset (make_platter 8 0 1 2))) 0) :=
  C1_allocation.1 umC1 [make_platter 8 0 1 2] (make_platter 8 0 1 2)
    rfl rfl (by decide) rfl (by decide) (by simp [umC1])

/-- Claim C2: Load Program with reg B ≠ 0 (and segment reg B live)
replaces segment 0 by a copy of segment reg B, with copy semantics:
after the step the two table entries hold the same contents, and
overwriting either entry leaves the other one's contents untouched;
with reg B = 0 nothing is copied.  In both cases the finger becomes
exactly reg C, with no post-step increment. -/
theorem C2_load_program :
    (∀ (m : UM) (s0 seg : List Nat) (p : Nat),
       m.programs[0]? = some s0 → s0[m.finger]? = some p → op_code p = 12 →
       m.reg (regb_offset p) ≠ 0 →
       m.programs[m.reg (regb_offset p)]? = some seg →
       ∃ m2 : UM,
         stepUM m = .ok m2 ∧
         m2.finger = m.reg (regc_offset p) ∧
         m2.programs[0]? = some seg ∧
         m2.programs[m.reg (regb_offset p)]? = some seg ∧
         (∀ w : List Nat,
            (m2.programs.set 0 w)[m.reg (regb_offset p)]? = some seg) ∧
         (∀ w : List Nat,
            (m2.programs.set (m.reg (regb_offset p)) w)[0]? = some seg)) ∧
    (∀ (m : UM) (s0 : List Nat) (p : Nat),
       m.programs[0]? = some s0 → s0[m.finger]? = some p → op_code p = 12 →
       m.reg (regb_offset p) = 0 →
       stepUM m = .ok { m with finger := m.reg (regc_offset p) }) := by
  constructor
  · intro m s0 seg p h0 hf hop hb hseg
    obtain ⟨h0lt, -⟩ := List.getElem?_eq_some_iff.1 h0
    refine ⟨{ m with
        programs := m.programs.set 0 seg,
        finger := m.reg (regc_offset p) },
      ?_, rfl, ?_, ?_, ?_, ?_⟩
    · rw [stepUM_fetch m s0 p h0 hf]
      exact execOp_load_copy m p seg hop hb hseg
    · exact List.getElem?_set_self h0lt
    · rw [List.getElem?_set_ne (Ne.symm hb)]
      exact hseg
    · intro w
      rw [List.set_set, List.getElem?_set_ne (Ne.symm hb)]
      exact hseg
    · intro w
      rw [List.getElem?_set_ne hb]
      exact List.getElem?_set_self h0lt
  · intro m s0 p h0 hf hop hb
    rw [stepUM_fetch m s0 p h0 hf]
    exact execOp_load_self m p hop hb

/-- Concrete machine for the C2 witness: register 1 holds 1, register 2
holds 5, segment 1 holds `[99, 98]`, and the program loads segment
reg 1 with the finger redirected to reg 2. -/
def umC2 : UM :=
  { registers := [0, 1, 5, 0, 0, 0, 0, 0]
    programs := [[make_platter 12 0 1 2], [99, 98]]
    finger := 0
    freelist := []
    input := []
    output := []
    unknownReports := [] }

/-- Witness for `C2_load_program` at a concrete program load. -/
theorem C2_witness :
    ∃ m2 : UM,
      stepUM umC2 = .ok m2 ∧
      m2.finger = 5 ∧
      m2.programs[0]? = some [99, 98] ∧
      m2.programs[1]? = some [99, 98] ∧
      (∀ w : List Nat, (m2.programs.set 0 w)[1]? = some [99, 98]) ∧
      (∀ w : List Nat, (m2.programs.set 1 w)[0]? = some [99, 98]) :=
  C2_load_program.1 umC2 [make_platter 12 0 1 2] [99, 98]
    (make_platter 12 0 1 2) rfl rfl (by decide) (by decide) rfl

/-- Claim C10: a successful Abandonment keeps the table length
unchanged and leaves the abandoned identifier mapped to the empty
segment (storage cleared, entry not removed); and in any state where an
identifier maps to the empty segment, Array Index and Array Amendment
naming that identifier fail as out-of-bounds offset accesses (the inner
bounds check) at every offset, not as dead-identifier accesses (the
outer table lookup succeeds). -/
theorem C10_abandoned_entry_faults :
    (∀ (m : UM) (s0 : List Nat) (p : Nat),
       m.programs[0]? = some s0 → s0[m.finger]? = some p → op_code p = 9 →
       m.reg (regc_offset p) < m.programs.length →
       ∃ m1 : UM,
         stepUM m = .ok m1 ∧
         m1.programs.length = m.programs.length ∧
         m1.programs[m.reg (regc_offset p)]? = some ([] : List Nat)) ∧
    (∀ (m : UM) (s0 : List Nat) (p : Nat),
       m.programs[0]? = some s0 → s0[m.finger]? = some p → op_code p = 1 →
       m.programs[m.reg (regb_offset p)]? = some ([] : List Nat) →
       stepUM m = .err .offsetOOB) ∧
    (∀ (m : UM) (s0 : List Nat) (p : Nat),
       m.programs[0]? = some s0 → s0[m.finger]? = some p → op_code p = 2 →
       m.programs[m.reg (rega_offset p)]? = some ([] : List Nat) →
       stepUM m = .err .offsetOOB) := by
  refine ⟨?_, ?_, ?_⟩
  · intro m s0 p h0 hf hop hlt
    refine ⟨{ m with
        freelist := m.reg (regc_offset p) :: m.freelist,
        programs := m.programs.set (m.reg (regc_offset p)) [],
        finger := m.finger + 1 },
      ?_, by simp, List.getElem?_set_self (by simpa using hlt)⟩
    rw [stepUM_fetch m s0 p h0 hf]
    exact execOp_abandon_ok m p hop hlt
  · intro m s0 p h0 hf hop hseg
    rw [stepUM_fetch m s0 p h0 hf]
    exact execOp_index_empty m p hop hseg
  · intro m s0 p h0 hf hop hseg
    rw [stepUM_fetch m s0 p h0 hf]
    exact execOp_amend_empty m p hop hseg

/-- Concrete machine for the C10 witness: register 1 holds 1 and the
program abandons segment reg 1, where segment 1 exists with content
`[5]`. -/
def umC10 : UM :=
  { registers := [0, 1, 0, 0, 0, 0, 0, 0]
    programs := [[make_platter 9 0 0 1], [5]]
    finger := 0
    freelist := []
    input := []
    output := []
    unknownReports := [] }

/-- Witness for `C10_abandoned_entry_faults` at a concrete abandonment
of segment 1. -/
theorem C10_witness :
    ∃ m1 : UM,
      stepUM umC10 = .ok m1 ∧
      m1.programs.length = 2 ∧
      m1.programs[1]? = some ([] : List Nat) :=
  C10_abandoned_entry_faults.1 umC10 [make_platter 9 0 0 1]
    (make_platter 9 0 0 1) rfl rfl (by decide) (by decide)

end UMachine
